import Mathlib

/-!
# Verification of the bravesite worker (`worker.js`)

A shallow embedding of the resolution-and-delivery pipeline of the
Cloudflare worker in `worker.js`:

* hostname parsing (`handleRequest`, lines 87-123) over strings modelled
  as `List Char`, with JavaScript `String.prototype.split('.')` /
  `Array.prototype.join('.')` semantics reproduced by `splitOnDot` /
  `joinDot`;
* record interpretation (`processApiResponse`, lines 170-192) with
  JavaScript truthiness (`jsTruthy`) and the `||` chain (`jsOr`);
* the IPFS fetch strategy (`fetchIPFS`, lines 2-68): the `Promise.race`
  phase is modelled by the settlement order of the three gateway
  fetches, and the sequential fallback phase by an adversarial oracle
  giving the result of each attempt, producing an explicit event trace
  (attempts and `setTimeout` delays);
* content-type resolution (lines 202-209);
* the caching request handler (`handleRequest`, lines 127-162) with the
  in-memory `apiCache` map and an adversarial resolver oracle.
-/

/-- Strings of the JavaScript program, modelled as lists of characters. -/
abbrev Str := List Char

/-- JavaScript `s.split('.')`: splits on every `'.'`, keeping empty
segments; always returns at least one segment. -/
def splitOnDot : Str → List Str
  | [] => [[]]
  | c :: rest =>
    if c = '.' then [] :: splitOnDot rest
    else
      match splitOnDot rest with
      | [] => [[c]]
      | h :: t => (c :: h) :: t

/-- JavaScript `parts.join('.')`. -/
def joinDot : List Str → Str
  | [] => []
  | [x] => x
  | x :: xs => x ++ '.' :: joinDot xs

theorem splitOnDot_ne_nil (s : Str) : splitOnDot s ≠ [] := by
  induction s with
  | nil => simp [splitOnDot]
  | cons c rest ih =>
    simp only [splitOnDot]
    split
    · simp
    · cases h : splitOnDot rest with
      | nil => simp
      | cons a t => simp

/-- Splitting a string with a dot at the junction splits each side:
`split(w + "." + r) = split(w) ++ split(r)`. -/
theorem splitOnDot_append_dot (w r : Str) :
    splitOnDot (w ++ '.' :: r) = splitOnDot w ++ splitOnDot r := by
  induction w with
  | nil => simp [splitOnDot]
  | cons c rest ih =>
    simp only [List.cons_append, splitOnDot]
    split
    · simp [ih]
    · rw [List.append_eq, ih]
      cases h : splitOnDot rest with
      | nil => exact absurd h (splitOnDot_ne_nil rest)
      | cons a t => simp

/-- `join('.')` is a left inverse of `split('.')`. -/
theorem joinDot_splitOnDot (s : Str) : joinDot (splitOnDot s) = s := by
  induction s with
  | nil => simp [splitOnDot, joinDot]
  | cons c rest ih =>
    simp only [splitOnDot]
    split
    · subst c
      cases h : splitOnDot rest with
      | nil => exact absurd h (splitOnDot_ne_nil rest)
      | cons a t =>
        rw [h] at ih
        simp only [joinDot]
        cases t with
        | nil => simp only [joinDot] at ih ⊢; simp [ih]
        | cons b t' => simp only [joinDot] at ih ⊢; simp [ih]
    · cases h : splitOnDot rest with
      | nil => exact absurd h (splitOnDot_ne_nil rest)
      | cons a t =>
        rw [h] at ih
        cases t with
        | nil => simp only [joinDot] at ih ⊢; simp [ih]
        | cons b t' => simp only [joinDot] at ih ⊢; simp [ih]

/-- The fixed dotted suffix `".brave.site"` (worker.js line 92). -/
def dotBraveSite : Str := ".brave.site".toList

/-- The bare suffix root `"brave.site"` (worker.js line 94). -/
def braveSiteRoot : Str := "brave.site".toList

/-- The literal `".brave"` appended to form the lookup key (line 123). -/
def dotBrave : Str := ".brave".toList

/-- Outcome of the hostname-parsing section of `handleRequest`
(worker.js lines 87-123). -/
inductive HostResult where
  /-- Hostname is exactly `brave.site`: welcome message, HTTP 200 (line 95). -/
  | welcome : HostResult
  /-- Hostname does not end with `.brave.site`: HTTP 400 (line 99). -/
  | unsupportedFormat : HostResult
  /-- Fewer than 3 dot-separated parts: HTTP 400 (line 108). -/
  | tooFewParts : HostResult
  /-- Empty label sequence after dropping `brave`/`site`: HTTP 400 (line 121). -/
  | missingDomain : HostResult
  /-- A lookup key `braveDomainToQuery` was derived (line 123). -/
  | query (key : Str) : HostResult
  deriving DecidableEq, Repr

/-- Hostname parsing, transcribed from `handleRequest` lines 87-123:
check the `.brave.site` suffix (welcome on the bare root, HTTP 400
otherwise), split on `'.'`, require at least 3 parts, drop the trailing
two labels, reject an empty remainder, and join the rest with `'.'`
followed by the literal `".brave"`. -/
def parseHostname (hostname : Str) : HostResult :=
  if dotBraveSite.isSuffixOf hostname then
    let parts := splitOnDot hostname
    if parts.length < 3 then .tooFewParts
    else
      let targetDomainParts := parts.take (parts.length - 2)
      if targetDomainParts.length = 0 then .missingDomain
      else .query (joinDot targetDomainParts ++ dotBrave)
  else
    if hostname = braveSiteRoot then .welcome
    else .unsupportedFormat

/-! ## Resolution records (`processApiResponse`, worker.js lines 170-192) -/

/-- A JavaScript object mapping record-name strings to string values,
as an association list (first binding wins, one binding per key). -/
abbrev RecMap := List (String × String)

/-- The JSON body returned by the resolution service: it may carry a
top-level `records` mapping and/or one nested under `data.records`
(worker.js reads `record.records` and `record.data?.records`). -/
structure ResolutionRecord where
  records : Option RecMap
  dataRecords : Option RecMap
  deriving DecidableEq, Repr

/-- `record.records?.[k]`: `undefined` when the `records` mapping is
absent or lacks the key. -/
def recordsGet (r : ResolutionRecord) (k : String) : Option String :=
  match r.records with
  | none => none
  | some m => m.lookup k

/-- JavaScript truthiness of a string-or-undefined value: truthy iff it
is a non-empty string. -/
def jsTruthy : Option String → Bool
  | none => false
  | some s => !s.isEmpty

/-- JavaScript `a || b` restricted to string-or-undefined values. -/
def jsOr (a b : Option String) : Option String :=
  if jsTruthy a then a else b

/-- The `||` chain of worker.js lines 185-188:
`records?.['dweb.ipfs.hash'] || records?.['ipfs.html.value'] ||
records?.['crypto.IPFS.value'] || null`. -/
def ipfsHashOf (r : ResolutionRecord) : Option String :=
  jsOr (recordsGet r "dweb.ipfs.hash")
    (jsOr (recordsGet r "ipfs.html.value")
      (jsOr (recordsGet r "crypto.IPFS.value") none))

/-- Modelled from the spec's words (for comparison with `ipfsHashOf`):
"the first non-empty value among the given candidates, in order". -/
def specFirstNonEmpty : List (Option String) → Option String
  | [] => none
  | none :: rest => specFirstNonEmpty rest
  | some s :: rest => if s.isEmpty then specFirstNonEmpty rest else some s

/-! ## Gateway responses and content-type resolution (lines 202-209) -/

/-- A settled HTTP response from an IPFS gateway: its status, the value
of `headers.get('Content-Type')` (`none` when the header is absent),
and `new URL(response.url).pathname`. -/
structure GatewayResponse where
  status : Nat
  contentType : Option String
  pathname : Str
  deriving DecidableEq, Repr

/-- JavaScript `response.ok`: status in the range 200-299. -/
def isOk (status : Nat) : Bool := 200 ≤ status && status ≤ 299

/-- Extension-based inference of worker.js lines 204-208. -/
def inferContentType (path : Str) : String :=
  if (".png".toList).isSuffixOf path then "image/png"
  else if (".jpg".toList).isSuffixOf path then "image/jpeg"
  else if (".json".toList).isSuffixOf path then "application/json"
  else "text/html"

/-- Content-type determination of worker.js lines 202-209: take the
declared header; when `!contentType` (header absent, or present but the
empty string, which is falsy) infer from the path extension. -/
def resolveContentType (resp : GatewayResponse) : String :=
  match resp.contentType with
  | some ct => if ct.isEmpty then inferContentType resp.pathname else ct
  | none => inferContentType resp.pathname

/-! ## The IPFS fetch strategy (`fetchIPFS`, worker.js lines 2-68)

The three gateway URL templates (lines 3-7) are interchangeable
sources; the fallback phase iterates them by index `0, 1, 2`. -/

/-- The gateway URL for a given gateway index and content hash
(worker.js lines 3-7). -/
def gatewayUrl (hash : String) : Nat → String
  | 0 => "https://cloudflare-ipfs.com/ipfs/" ++ hash
  | 1 => "https://ipfs.io/ipfs/" ++ hash
  | _ => "https://dweb.link/ipfs/" ++ hash

/-- The number of configured gateways. -/
def gatewayCount : Nat := 3

/-- How one raw `fetch` of the race phase settles: with a response
(of any status) or with a network-level rejection. -/
inductive SettledFetch where
  | response (r : GatewayResponse) : SettledFetch
  | networkError : SettledFetch
  deriving DecidableEq, Repr

/-- The promise mapped over each race fetch (worker.js lines 9-25):
a non-ok response is converted into a rejection, a network error stays
a rejection, an ok response fulfils with the response. -/
def mappedSettle : SettledFetch → Option GatewayResponse
  | .response r => if isOk r.status then some r else none
  | .networkError => none

/-- `Promise.race` over the mapped fetch promises (worker.js line 32),
given the settlement order of the underlying fetches (head = first to
settle; the list is non-empty whenever some fetch settles at all):
the race's value is determined by the first settlement alone. -/
def raceFirst (settleOrder : List SettledFetch) : Option GatewayResponse :=
  match settleOrder with
  | [] => none
  | s :: _ => mappedSettle s

/-- Observable events of the fallback phase: an attempt number `i` on
gateway `g` (the `fetch` of line 52), or an inter-attempt
`setTimeout` delay (line 58). -/
inductive Event where
  | attempt (g i : Nat) : Event
  | delayEvent (d : Nat) : Event
  deriving DecidableEq, Repr

/-- How one fallback attempt ends: with a response or a network error.
An oracle `Nat → Nat → AttemptResult` gives the result of attempt `i`
on gateway `g`. -/
abbrev AttemptResult := SettledFetch

/-- An attempt that counts as failed: a network error or a non-2xx
response. -/
def isFailedAttempt : AttemptResult → Bool
  | .response r => !isOk r.status
  | .networkError => true

/-- The retry loop on one gateway (worker.js lines 49-63), from attempt
number `i` with `fuel` attempts remaining (`fuel = retries - i` at
entry).  On an ok response return it; on a non-ok response delay
(line 58) unless this was the final attempt (`i < retries - 1` iff
`0 < fuel` after consuming this attempt); on a network error the
`catch` block (lines 59-62) continues with no delay.  Returns the
result and the trace of events. -/
def fallbackGo (oracle : Nat → Nat → AttemptResult) (g delay : Nat) :
    Nat → Nat → Option GatewayResponse × List Event
  | _, 0 => (none, [])
  | i, fuel + 1 =>
    match oracle g i with
    | .response r =>
      if isOk r.status then (some r, [.attempt g i])
      else
        let rest := fallbackGo oracle g delay (i + 1) fuel
        (rest.1, .attempt g i ::
          (if 0 < fuel then Event.delayEvent delay :: rest.2 else rest.2))
    | .networkError =>
      let rest := fallbackGo oracle g delay (i + 1) fuel
      (rest.1, .attempt g i :: rest.2)

/-- All `retries` attempts on one gateway (worker.js line 49). -/
def fallbackGateway (oracle : Nat → Nat → AttemptResult)
    (g retries delay : Nat) : Option GatewayResponse × List Event :=
  fallbackGo oracle g delay 0 retries

/-- The fallback iteration over a list of gateway indices
(worker.js line 48): exhaust one gateway's retries, then advance to the
next; stop at the first ok response. -/
def fallbackOver (oracle : Nat → Nat → AttemptResult)
    (retries delay : Nat) : List Nat → Option GatewayResponse × List Event
  | [] => (none, [])
  | g :: gs =>
    match fallbackGateway oracle g retries delay with
    | (some r, evs) => (some r, evs)
    | (none, evs) =>
      let rest := fallbackOver oracle retries delay gs
      (rest.1, evs ++ rest.2)

/-- Phase 2 of `fetchIPFS` (worker.js lines 48-64) over the three
configured gateways in order. -/
def fallbackAll (oracle : Nat → Nat → AttemptResult)
    (retries delay : Nat) : Option GatewayResponse × List Event :=
  fallbackOver oracle retries delay (List.range gatewayCount)

/-- `fetchIPFS` (worker.js lines 2-68): the race phase returns the
first-settled response when it is ok; otherwise (the `catch` of lines
35-44) control proceeds to the sequential fallback; a fallback miss
yields `none` (the `return null` of line 67). -/
def fetchIPFS (raceOrder : List SettledFetch)
    (oracle : Nat → Nat → AttemptResult) (retries delay : Nat) :
    Option GatewayResponse × List Event :=
  match raceFirst raceOrder with
  | some r => (some r, [])
  | none => fallbackAll oracle retries delay

/-! ## Record interpretation and response assembly (lines 170-221) -/

/-- Terminal outcome of `processApiResponse`. -/
inductive ProcessResult where
  /-- `Response.redirect(redirectUrl, 302)` (line 182). -/
  | redirect (url : String) : ProcessResult
  /-- `No IPFS hash found for domain`, status 404 (line 191). -/
  | notFound : ProcessResult
  /-- `Error fetching IPFS content: All gateways failed`, status 500 (line 198). -/
  | allGatewaysFailed : ProcessResult
  /-- Content served with the resolved content-type, status 200 (lines 213-220). -/
  | content (contentType : String) : ProcessResult
  deriving DecidableEq, Repr

/-- The HTTP status of each `processApiResponse` outcome. -/
def statusOf : ProcessResult → Nat
  | .redirect _ => 302
  | .notFound => 404
  | .allGatewaysFailed => 500
  | .content _ => 200

/-- `processApiResponse` (worker.js lines 170-221), with the content
fetch abstracted into an oracle `F` from the content hash to the result
of `fetchIPFS`: check `records?.['browser.redirect_url']` for
truthiness first (line 179), otherwise extract the hash by the `||`
chain, 404 when `!ipfsHash`, fetch, 500 when the fetch returned
`null`, else serve with the resolved content-type. -/
def processApiResponse (record : ResolutionRecord)
    (F : String → Option GatewayResponse) : ProcessResult :=
  let redirectUrl := recordsGet record "browser.redirect_url"
  if jsTruthy redirectUrl then .redirect (redirectUrl.getD "")
  else
    match ipfsHashOf record with
    | none => .notFound
    | some hash =>
      match F hash with
      | none => .allGatewaysFailed
      | some resp => .content (resolveContentType resp)

/-! ## The caching request handler (worker.js lines 79-167) -/

/-- The reply of the external resolution service to one query, from
the worker's viewpoint (lines 136-151). -/
inductive ResolverReply where
  /-- `response.ok` and the JSON body parsed into a record. -/
  | success (record : ResolutionRecord) : ResolverReply
  /-- `!response.ok`: surfaced as status 500 (line 148). -/
  | httpError (status : Nat) : ResolverReply
  /-- `response.json()` threw: caught at line 163, status 500. -/
  | decodeError : ResolverReply
  deriving Repr

/-- Terminal outcome of `handleRequest`. -/
inductive HandleResult where
  /-- `API key not valid`, status 500 (line 84). -/
  | missingApiKey : HandleResult
  /-- Welcome message, status 200 (line 95). -/
  | welcome : HandleResult
  /-- `Invalid or unsupported domain format`, status 400 (line 99). -/
  | unsupportedFormat : HandleResult
  /-- `Invalid domain format.`, status 400 (line 108). -/
  | tooFewParts : HandleResult
  /-- `Please specify a domain`, status 400 (line 121). -/
  | missingDomain : HandleResult
  /-- `Error querying Unstoppable Domains`, status 500 (line 148). -/
  | upstreamError : HandleResult
  /-- `Server error`, status 500 (line 165). -/
  | serverError : HandleResult
  /-- The outcome of `processApiResponse` (lines 131, 162). -/
  | processed (p : ProcessResult) : HandleResult
  deriving DecidableEq, Repr

/-- The HTTP status of each `handleRequest` outcome. -/
def handleStatus : HandleResult → Nat
  | .missingApiKey => 500
  | .welcome => 200
  | .unsupportedFormat => 400
  | .tooFewParts => 400
  | .missingDomain => 400
  | .upstreamError => 500
  | .serverError => 500
  | .processed p => statusOf p

/-- The in-memory `apiCache` (worker.js line 71), an association list
with the most recent `set` in front, read through `List.lookup`. -/
abbrev Cache := List (Str × ResolutionRecord)

/-- `apiCache.set(key, record)` (line 157). -/
def cacheSet (cache : Cache) (key : Str) (record : ResolutionRecord) : Cache :=
  (key, record) :: cache

/-- `handleRequest` (worker.js lines 79-167): check the API key for
truthiness, parse the hostname, consult `apiCache` (line 128; a hit
processes the cached record with no resolver query), otherwise issue
exactly one query to the resolver oracle, surface its errors, and on
success cache the record (line 157) and process it.  Returns the
outcome, the updated cache, and the list of lookup keys queried
upstream during this request. -/
def handleRequest (apiKey : Option Str) (hostname : Str) (cache : Cache)
    (resolver : Str → ResolverReply) (F : String → Option GatewayResponse) :
    HandleResult × Cache × List Str :=
  match apiKey with
  | none => (.missingApiKey, cache, [])
  | some k =>
    if k.isEmpty then (.missingApiKey, cache, [])
    else
      match parseHostname hostname with
      | .welcome => (.welcome, cache, [])
      | .unsupportedFormat => (.unsupportedFormat, cache, [])
      | .tooFewParts => (.tooFewParts, cache, [])
      | .missingDomain => (.missingDomain, cache, [])
      | .query key =>
        match cache.lookup key with
        | some record => (.processed (processApiResponse record F), cache, [])
        | none =>
          match resolver key with
          | .httpError _ => (.upstreamError, cache, [key])
          | .decodeError => (.serverError, cache, [key])
          | .success record =>
            (.processed (processApiResponse record F),
             cacheSet cache key record, [key])

/-- A sequence of requests against one process-lifetime cache:
threads the cache through `handleRequest` and collects every lookup
key queried upstream. -/
def runRequests (apiKey : Option Str) (resolver : Str → ResolverReply)
    (F : String → Option GatewayResponse) :
    List Str → Cache → Cache × List Str
  | [], cache => (cache, [])
  | h :: hs, cache =>
    let step := handleRequest apiKey h cache resolver F
    let rest := runRequests apiKey resolver F hs step.2.1
    (rest.1, step.2.2 ++ rest.2)

/-! ## Parser lemmas -/

/-- Any hostname of the form `w ++ ".brave.site"` parses to the lookup
key `w ++ ".brave"`; by `joinDot_splitOnDot`, `w` is exactly the
leading labels of the hostname joined by `'.'`. -/
theorem parseHostname_append (w : Str) :
    parseHostname (w ++ dotBraveSite) = .query (w ++ dotBrave) := by
  have h1 : dotBraveSite = '.' :: "brave.site".toList := rfl
  have h2 : splitOnDot ("brave.site".toList) = ["brave".toList, "site".toList] := by
    decide
  have hsplit : splitOnDot (w ++ dotBraveSite) =
      splitOnDot w ++ ["brave".toList, "site".toList] := by
    rw [h1, splitOnDot_append_dot, h2]
  have hne := splitOnDot_ne_nil w
  have hlen : 1 ≤ (splitOnDot w).length := List.length_pos.mpr hne
  have hsfx : dotBraveSite.isSuffixOf (w ++ dotBraveSite) = true := by
    rw [List.isSuffixOf_iff_suffix]
    exact List.suffix_append w dotBraveSite
  unfold parseHostname
  rw [hsfx]
  simp only [if_true, hsplit, List.length_append]
  have hlen3 : ¬((splitOnDot w).length + ["brave".toList, "site".toList].length < 3) := by
    simp only [List.length_cons, List.length_nil]
    omega
  rw [if_neg hlen3]
  have htake : (splitOnDot w ++ ["brave".toList, "site".toList]).take
      ((splitOnDot w).length + ["brave".toList, "site".toList].length - 2) =
      splitOnDot w := by
    have : (splitOnDot w).length + ["brave".toList, "site".toList].length - 2 =
        (splitOnDot w).length := by simp
    rw [this, List.take_left]
  rw [htake]
  have hnz : ¬((splitOnDot w).length = 0) := by omega
  rw [if_neg hnz, joinDot_splitOnDot]

/-- A hostname ends with `".brave.site"` exactly when it decomposes as
`w ++ ".brave.site"`. -/
theorem isSuffixOf_braveSite_iff (h : Str) :
    dotBraveSite.isSuffixOf h = true ↔ ∃ w, h = w ++ dotBraveSite := by
  rw [List.isSuffixOf_iff_suffix]
  constructor
  · rintro ⟨t, rfl⟩; exact ⟨t, rfl⟩
  · rintro ⟨w, rfl⟩; exact ⟨w, rfl⟩

/-- The `||` chain computes the first non-empty value among three
candidates, as the spec words it. -/
theorem jsOr_chain_eq_specFirstNonEmpty (a b c : Option String) :
    jsOr a (jsOr b (jsOr c none)) = specFirstNonEmpty [a, b, c] := by
  cases a <;> cases b <;> cases c <;>
    simp only [jsOr, jsTruthy, specFirstNonEmpty, Bool.not_eq_true'] <;>
    repeat' split <;> simp_all

/-! ## Claims -/

/-- C1: for every `ResolutionRecord`, interpretation follows the fixed
precedence: a non-empty `browser.redirect_url` value in the record's
field mapping forces a Redirect to that URL with HTTP 302 regardless of
any content identifier; otherwise the content identifier is the first
non-empty value among `dweb.ipfs.hash`, `ipfs.html.value`,
`crypto.IPFS.value` in that order; and when no redirect and none of
the three is non-empty the outcome is NotFound with HTTP 404. -/
theorem C1_record_precedence :
    ∀ (r : ResolutionRecord) (F : String → Option GatewayResponse),
      (∀ url, recordsGet r "browser.redirect_url" = some url → url ≠ "" →
        processApiResponse r F = .redirect url ∧
        statusOf (processApiResponse r F) = 302) ∧
      (jsTruthy (recordsGet r "browser.redirect_url") = false →
        ipfsHashOf r =
          specFirstNonEmpty [recordsGet r "dweb.ipfs.hash",
            recordsGet r "ipfs.html.value", recordsGet r "crypto.IPFS.value"] ∧
        (ipfsHashOf r = none →
          processApiResponse r F = .notFound ∧
          statusOf (processApiResponse r F) = 404)) := by
  intro r F
  constructor
  · intro url hget hne
    have hie : url.isEmpty = false := by
      rw [← Bool.not_eq_true]
      intro hc
      exact hne ((String.isEmpty_iff url).mp hc)
    have htruthy : jsTruthy (some url) = true := by
      simp [jsTruthy, hie]
    constructor
    · simp [processApiResponse, hget, htruthy]
    · simp [processApiResponse, hget, htruthy, statusOf]
  · intro hfalse
    refine ⟨jsOr_chain_eq_specFirstNonEmpty _ _ _, ?_⟩
    intro hnone
    constructor
    · simp [processApiResponse, hfalse, hnone]
    · simp [processApiResponse, hfalse, hnone, statusOf]

/-- Witness for C1 at a record holding both a redirect URL and a
content hash: the redirect wins. -/
theorem C1_record_precedence_witness :
    processApiResponse
        ⟨some [("browser.redirect_url", "https://x.example"),
               ("dweb.ipfs.hash", "Qm1")], none⟩ (fun _ => none) =
      .redirect "https://x.example" :=
  ((C1_record_precedence
      ⟨some [("browser.redirect_url", "https://x.example"),
             ("dweb.ipfs.hash", "Qm1")], none⟩ (fun _ => none)).1
    "https://x.example" (by decide) (by decide)).1

/-- C2: every hostname ending in `.brave.site` (with its at least one
leading label) derives the lookup key equal to the leading labels
joined by `'.'` (that is, the prefix `w` before the suffix) with
`".brave"` appended; and a hostname ending in `.brave.site` that split
into fewer than 3 labels would be rejected as `tooFewParts` (HTTP
400) — a situation that is in fact vacuous, since the suffix itself
contributes two dots, so such hostnames always have at least 3 labels. -/
theorem C2_lookup_key :
    (∀ w : Str, parseHostname (w ++ dotBraveSite) = .query (w ++ dotBrave)) ∧
    (∀ h : Str, dotBraveSite.isSuffixOf h = true →
      (splitOnDot h).length < 3 → parseHostname h = .tooFewParts) := by
  constructor
  · exact parseHostname_append
  · intro h hsfx hlt
    unfold parseHostname
    rw [hsfx]
    simp [hlt]

/-- Witness for C2: `sunspot.brave.site` derives `sunspot.brave`. -/
theorem C2_lookup_key_witness :
    parseHostname ("sunspot.brave.site".toList) =
      .query ("sunspot.brave".toList) :=
  C2_lookup_key.1 ("sunspot".toList)

/-- C3: a request for the bare root `brave.site` yields the HTTP 200
welcome response with no resolver query and no cache change; a request
whose hostname neither equals `brave.site` nor ends in `.brave.site`
(such as `foo.com`) yields HTTP 400, again with no resolver query. -/
theorem C3_welcome_and_unsupported :
    ∀ (apiKey : Str) (cache : Cache) (resolver : Str → ResolverReply)
      (F : String → Option GatewayResponse),
      apiKey ≠ [] →
      (handleRequest (some apiKey) braveSiteRoot cache resolver F =
         (.welcome, cache, []) ∧ handleStatus .welcome = 200) ∧
      (∀ h : Str, dotBraveSite.isSuffixOf h = false → h ≠ braveSiteRoot →
        handleRequest (some apiKey) h cache resolver F =
          (.unsupportedFormat, cache, []) ∧
        handleStatus .unsupportedFormat = 400) := by
  intro apiKey cache resolver F hkey
  have hkey' : apiKey.isEmpty = false := by
    cases apiKey with
    | nil => exact absurd rfl hkey
    | cons a l => rfl
  constructor
  · constructor
    · have hroot : parseHostname braveSiteRoot = .welcome := by decide
      simp [handleRequest, hkey', hroot]
    · rfl
  · intro h hsfx hne
    have hparse : parseHostname h = .unsupportedFormat := by
      unfold parseHostname
      rw [hsfx]
      simp [hne]
    constructor
    · simp [handleRequest, hkey', hparse]
    · rfl

/-- Witness for C3: a concrete API key, empty cache, and the hostname
`foo.com`. -/
theorem C3_welcome_and_unsupported_witness :
    handleRequest (some ("k".toList)) ("foo.com".toList) []
        (fun _ => .decodeError) (fun _ => none) =
      (.unsupportedFormat, [], []) :=
  ((C3_welcome_and_unsupported ("k".toList) [] (fun _ => .decodeError)
      (fun _ => none) (by decide)).2 ("foo.com".toList)
    (by decide) (by decide)).1

/-- On a cache hit, `handleRequest` processes the cached record with no
resolver query and an unchanged cache (worker.js lines 128-132). -/
theorem handleRequest_hit (apiKey hostname key : Str)
    (record : ResolutionRecord) (cache : Cache)
    (resolver : Str → ResolverReply) (F : String → Option GatewayResponse)
    (hk : apiKey.isEmpty = false) (hp : parseHostname hostname = .query key)
    (hm : cache.lookup key = some record) :
    handleRequest (some apiKey) hostname cache resolver F =
      (.processed (processApiResponse record F), cache, []) := by
  simp [handleRequest, hk, hp, hm]

/-- On a cache miss, `handleRequest` issues exactly one resolver query
for the key, and caches the record exactly when the reply was a
success (worker.js lines 133-162). -/
theorem handleRequest_miss (apiKey hostname key : Str) (cache : Cache)
    (resolver : Str → ResolverReply) (F : String → Option GatewayResponse)
    (hk : apiKey.isEmpty = false) (hp : parseHostname hostname = .query key)
    (hm : cache.lookup key = none) :
    handleRequest (some apiKey) hostname cache resolver F =
      match resolver key with
      | .httpError _ => (.upstreamError, cache, [key])
      | .decodeError => (.serverError, cache, [key])
      | .success record =>
        (.processed (processApiResponse record F),
         cacheSet cache key record, [key]) := by
  cases hres : resolver key <;> simp [handleRequest, hk, hp, hm, hres]

/-- C10: every hostname ending in `.brave.site` splits into at least 3
labels and keeps a non-empty remainder after dropping the trailing two,
so the defensive `missingDomain` HTTP 400 branch is unreachable; the
hostname `.brave.site`, whose single leading label is empty, is not
rejected there but derives the lookup key `.brave` and proceeds to a
resolution query. -/
theorem C10_missing_domain_unreachable :
    (∀ h : Str, dotBraveSite.isSuffixOf h = true →
      3 ≤ (splitOnDot h).length ∧
      (splitOnDot h).take ((splitOnDot h).length - 2) ≠ [] ∧
      parseHostname h ≠ .missingDomain) ∧
    (∀ (apiKey : Str) (resolver : Str → ResolverReply)
        (F : String → Option GatewayResponse),
      apiKey ≠ [] →
      parseHostname (".brave.site".toList) = .query dotBrave ∧
      (handleRequest (some apiKey) (".brave.site".toList) [] resolver F).2.2 =
        [dotBrave]) := by
  constructor
  · intro h hsfx
    obtain ⟨w, rfl⟩ := (isSuffixOf_braveSite_iff h).mp hsfx
    have h1 : dotBraveSite = '.' :: "brave.site".toList := rfl
    have h2 : splitOnDot ("brave.site".toList) =
        ["brave".toList, "site".toList] := by decide
    have hsplit : splitOnDot (w ++ dotBraveSite) =
        splitOnDot w ++ ["brave".toList, "site".toList] := by
      rw [h1, splitOnDot_append_dot, h2]
    have hlen : 1 ≤ (splitOnDot w).length :=
      List.length_pos.mpr (splitOnDot_ne_nil w)
    refine ⟨?_, ?_, ?_⟩
    · rw [hsplit]
      simp only [List.length_append, List.length_cons, List.length_nil]
      omega
    · rw [hsplit]
      have hl : (splitOnDot w ++ ["brave".toList, "site".toList]).length - 2 =
          (splitOnDot w).length := by
        simp only [List.length_append, List.length_cons, List.length_nil]
        omega
      rw [hl, List.take_left]
      exact splitOnDot_ne_nil w
    · rw [parseHostname_append]
      intro hcontra
      cases hcontra
  · intro apiKey resolver F hkey
    have hkey' : apiKey.isEmpty = false := by
      cases apiKey with
      | nil => exact absurd rfl hkey
      | cons a l => rfl
    have hparse : parseHostname (".brave.site".toList) = .query dotBrave := by
      decide
    refine ⟨hparse, ?_⟩
    rw [handleRequest_miss apiKey (".brave.site".toList) dotBrave []
      resolver F hkey' hparse rfl]
    cases resolver dotBrave <;> rfl

/-- Witness for C10 at the hostname `a.brave.site` and a concrete
resolver. -/
theorem C10_missing_domain_unreachable_witness :
    3 ≤ (splitOnDot ("a.brave.site".toList)).length ∧
    parseHostname (".brave.site".toList) = .query dotBrave := by
  refine ⟨(C10_missing_domain_unreachable.1 ("a.brave.site".toList)
    (by decide)).1, ?_⟩
  exact (C10_missing_domain_unreachable.2 ("k".toList) (fun _ => .decodeError)
    (fun _ => none) (by decide)).1

/-- C4: the Phase-1 race can only be won by a response that is
individually successful (2xx), and that winner is the first settlement
of the race (hence the first successful response to arrive); a non-2xx
status or network error never wins; and whenever the first fetch to
settle is a failure, the race is abandoned — whatever later settlements
would have brought — and `fetchIPFS` proceeds with the sequential
fallback phase. -/
theorem C4_race_first_success :
    (∀ (order : List SettledFetch) (r : GatewayResponse),
      raceFirst order = some r →
      isOk r.status = true ∧ order.head? = some (.response r)) ∧
    (∀ (s : SettledFetch) (rest : List SettledFetch)
        (oracle : Nat → Nat → AttemptResult) (retries delay : Nat),
      mappedSettle s = none →
      raceFirst (s :: rest) = none ∧
      fetchIPFS (s :: rest) oracle retries delay =
        fallbackAll oracle retries delay) := by
  constructor
  · intro order r hwin
    cases order with
    | nil => simp [raceFirst] at hwin
    | cons s rest =>
      cases s with
      | response resp =>
        by_cases hok : isOk resp.status = true
        · have : resp = r := by
            simpa [raceFirst, mappedSettle, hok] using hwin
          subst this
          exact ⟨hok, rfl⟩
        · simp [raceFirst, mappedSettle, hok] at hwin
      | networkError => simp [raceFirst, mappedSettle] at hwin
  · intro s rest oracle retries delay hfail
    have hrace : raceFirst (s :: rest) = none := by
      simp [raceFirst, hfail]
    exact ⟨hrace, by simp [fetchIPFS, hrace]⟩

/-- Witness for C4: a winning 200 response at the head of the
settlement order, and a failed first settlement followed by a would-be
success that is nevertheless abandoned. -/
theorem C4_race_first_success_witness :
    (isOk (200 : Nat) = true ∧
      ([SettledFetch.response ⟨200, none, []⟩].head? =
        some (.response ⟨200, none, []⟩))) ∧
    fetchIPFS [.networkError, .response ⟨200, none, []⟩]
        (fun _ _ => .networkError) 3 1000 =
      fallbackAll (fun _ _ => .networkError) 3 1000 :=
  ⟨by
    have h := (C4_race_first_success.1 [SettledFetch.response ⟨200, none, []⟩]
      ⟨200, none, []⟩ (by decide))
    exact ⟨h.1, h.2⟩,
   (C4_race_first_success.2 .networkError [.response ⟨200, none, []⟩]
      (fun _ _ => .networkError) 3 1000 (by decide)).2⟩

/-! ## Fallback-phase lemmas -/

/-- If every attempt in the window `[i, i + fuel)` fails, the retry
loop on gateway `g` finds nothing. -/
theorem fallbackGo_all_fail (oracle : Nat → Nat → AttemptResult)
    (g delay : Nat) :
    ∀ (fuel i : Nat),
      (∀ j, i ≤ j → j < i + fuel → isFailedAttempt (oracle g j) = true) →
      (fallbackGo oracle g delay i fuel).1 = none := by
  intro fuel
  induction fuel with
  | zero => intro i _; rfl
  | succ n ih =>
    intro i h
    have hfail := h i (Nat.le_refl i) (by omega)
    have ihrec := ih (i + 1) (fun j hj1 hj2 => h j (by omega) (by omega))
    cases hor : oracle g i with
    | response r =>
      have hok : isOk r.status = false := by
        simpa [isFailedAttempt, hor] using hfail
      simp [fallbackGo, hor, hok, ihrec]
    | networkError =>
      simp [fallbackGo, hor, ihrec]

/-- If every attempt strictly before `i + k` (within the window) fails
and attempt `i + k` returns an ok response `r`, the retry loop on
gateway `g` returns `r`. -/
theorem fallbackGo_first_success (oracle : Nat → Nat → AttemptResult)
    (g delay : Nat) :
    ∀ (k fuel i : Nat) (r : GatewayResponse), k < fuel →
      (∀ j, i ≤ j → j < i + k → isFailedAttempt (oracle g j) = true) →
      oracle g (i + k) = .response r → isOk r.status = true →
      (fallbackGo oracle g delay i fuel).1 = some r := by
  intro k
  induction k with
  | zero =>
    intro fuel i r hk hprev hat hok
    cases fuel with
    | zero => omega
    | succ n =>
      have hat' : oracle g i = .response r := by simpa using hat
      simp [fallbackGo, hat', hok]
  | succ m ih =>
    intro fuel i r hk hprev hat hok
    cases fuel with
    | zero => omega
    | succ n =>
      have hfail := hprev i (Nat.le_refl i) (by omega)
      have ihrec := ih n (i + 1) r (by omega)
        (fun j hj1 hj2 => hprev j (by omega) (by omega))
        (by rw [show i + 1 + m = i + (m + 1) by omega]; exact hat) hok
      cases hor : oracle g i with
      | response r' =>
        have hok' : isOk r'.status = false := by
          simpa [isFailedAttempt, hor] using hfail
        simp [fallbackGo, hor, hok', ihrec]
      | networkError =>
        simp [fallbackGo, hor, ihrec]

/-- A gateway on which every attempt fails yields no response. -/
theorem fallbackGateway_all_fail (oracle : Nat → Nat → AttemptResult)
    (g retries delay : Nat)
    (h : ∀ i, i < retries → isFailedAttempt (oracle g i) = true) :
    (fallbackGateway oracle g retries delay).1 = none :=
  fallbackGo_all_fail oracle g delay retries 0
    (fun j _ hj2 => h j (by omega))

/-- When every attempt on every listed gateway fails, the fallback
iteration yields no response. -/
theorem fallbackOver_all_fail (oracle : Nat → Nat → AttemptResult)
    (retries delay : Nat) :
    ∀ gs : List Nat,
      (∀ g ∈ gs, ∀ i, i < retries → isFailedAttempt (oracle g i) = true) →
      (fallbackOver oracle retries delay gs).1 = none := by
  intro gs
  induction gs with
  | nil => intro _; rfl
  | cons g rest ih =>
    intro h
    have hg : (fallbackGateway oracle g retries delay).1 = none :=
      fallbackGateway_all_fail oracle g retries delay
        (h g (List.mem_cons_self g rest))
    have hrest := ih (fun g' hg' => h g' (List.mem_cons_of_mem g hg'))
    simp only [fallbackOver]
    cases hfb : fallbackGateway oracle g retries delay with
    | mk o evs =>
      cases o with
      | some r => rw [hfb] at hg; simp at hg
      | none => simpa using hrest

/-- When every attempt on every configured gateway fails, Phase 2
yields no response. -/
theorem fallbackAll_all_fail (oracle : Nat → Nat → AttemptResult)
    (retries delay : Nat)
    (h : ∀ g, g < gatewayCount → ∀ i, i < retries →
      isFailedAttempt (oracle g i) = true) :
    (fallbackAll oracle retries delay).1 = none :=
  fallbackOver_all_fail oracle retries delay (List.range gatewayCount)
    (fun g hg => h g (List.mem_range.mp hg))

/-- The fallback returns the first successful attempt it encounters, in
the lexicographic (gateway, attempt) order: if every attempt strictly
before `(g₀, i₀)` fails and attempt `i₀` on gateway `g₀` returns an ok
response `r`, Phase 2 returns `r`. -/
theorem fallbackAll_first_success (oracle : Nat → Nat → AttemptResult)
    (retries delay g₀ i₀ : Nat) (r : GatewayResponse)
    (hg : g₀ < gatewayCount) (hi : i₀ < retries)
    (hprev : ∀ g i, i < retries → (g < g₀ ∨ (g = g₀ ∧ i < i₀)) →
      isFailedAttempt (oracle g i) = true)
    (hat : oracle g₀ i₀ = .response r) (hok : isOk r.status = true) :
    (fallbackAll oracle retries delay).1 = some r := by
  have hwin : (fallbackGateway oracle g₀ retries delay).1 = some r :=
    fallbackGo_first_success oracle g₀ delay i₀ retries 0 r hi
      (fun j _ hj2 => hprev g₀ j (by omega) (Or.inr ⟨rfl, by omega⟩))
      (by simpa using hat) hok
  have hbefore : ∀ g, g < g₀ →
      (fallbackGateway oracle g retries delay).1 = none := fun g hglt =>
    fallbackGateway_all_fail oracle g retries delay
      (fun i hi' => hprev g i hi' (Or.inl hglt))
  have hrange : List.range gatewayCount = [0, 1, 2] := rfl
  have hg3 : g₀ < 3 := hg
  unfold fallbackAll
  rw [hrange]
  interval_cases g₀
  · simp only [fallbackOver]
    cases hfb : fallbackGateway oracle 0 retries delay with
    | mk o evs =>
      rw [hfb] at hwin
      cases o with
      | some r' => simpa using hwin
      | none => simp at hwin
  · have h0 := hbefore 0 (by omega)
    simp only [fallbackOver]
    cases hfb0 : fallbackGateway oracle 0 retries delay with
    | mk o0 e0 =>
      rw [hfb0] at h0
      cases o0 with
      | some r' => simp at h0
      | none =>
        cases hfb1 : fallbackGateway oracle 1 retries delay with
        | mk o1 e1 =>
          rw [hfb1] at hwin
          cases o1 with
          | some r' => simpa using hwin
          | none => simp at hwin
  · have h0 := hbefore 0 (by omega)
    have h1 := hbefore 1 (by omega)
    simp only [fallbackOver]
    cases hfb0 : fallbackGateway oracle 0 retries delay with
    | mk o0 e0 =>
      rw [hfb0] at h0
      cases o0 with
      | some r' => simp at h0
      | none =>
        cases hfb1 : fallbackGateway oracle 1 retries delay with
        | mk o1 e1 =>
          rw [hfb1] at h1
          cases o1 with
          | some r' => simp at h1
          | none =>
            cases hfb2 : fallbackGateway oracle 2 retries delay with
            | mk o2 e2 =>
              rw [hfb2] at hwin
              cases o2 with
              | some r' => simpa using hwin
              | none => simp at hwin

/-- C5: when every gateway fails in the Phase-1 race (the settlement
list is non-empty and every settlement maps to a rejection) and every
fallback attempt on every configured gateway fails, `fetchIPFS` signals
total failure (`null`) and `processApiResponse` — for a record with a
content identifier and no redirect — returns the HTTP 500
"all gateways failed" outcome; conversely, the fallback phase returns
the first successful (2xx) response it encounters in its fixed
source-by-source order. -/
theorem C5_total_failure :
    (∀ (raceOrder : List SettledFetch) (oracle : Nat → Nat → AttemptResult)
        (retries delay : Nat) (record : ResolutionRecord),
      raceOrder ≠ [] →
      (∀ s ∈ raceOrder, mappedSettle s = none) →
      (∀ g, g < gatewayCount → ∀ i, i < retries →
        isFailedAttempt (oracle g i) = true) →
      (fetchIPFS raceOrder oracle retries delay).1 = none ∧
      (jsTruthy (recordsGet record "browser.redirect_url") = false →
        ipfsHashOf record ≠ none →
        processApiResponse record
            (fun _ => (fetchIPFS raceOrder oracle retries delay).1) =
          .allGatewaysFailed ∧
        statusOf .allGatewaysFailed = 500)) ∧
    (∀ (oracle : Nat → Nat → AttemptResult) (retries delay g₀ i₀ : Nat)
        (r : GatewayResponse),
      g₀ < gatewayCount → i₀ < retries →
      (∀ g i, i < retries → (g < g₀ ∨ (g = g₀ ∧ i < i₀)) →
        isFailedAttempt (oracle g i) = true) →
      oracle g₀ i₀ = .response r → isOk r.status = true →
      (fallbackAll oracle retries delay).1 = some r) := by
  constructor
  · intro raceOrder oracle retries delay record hne hrace hfail
    have hnone : (fetchIPFS raceOrder oracle retries delay).1 = none := by
      cases raceOrder with
      | nil => exact absurd rfl hne
      | cons s rest =>
        have hs := hrace s (List.mem_cons_self s rest)
        have hrf : raceFirst (s :: rest) = none := by simp [raceFirst, hs]
        simp only [fetchIPFS, hrf]
        exact fallbackAll_all_fail oracle retries delay hfail
    refine ⟨hnone, ?_⟩
    intro hred hhash
    obtain ⟨h, hh⟩ := Option.ne_none_iff_exists'.mp hhash
    exact ⟨by simp [processApiResponse, hred, hh, hnone], rfl⟩
  · exact fun oracle retries delay g₀ i₀ r hg hi hprev hat hok =>
      fallbackAll_first_success oracle retries delay g₀ i₀ r hg hi hprev hat hok

/-- Witness for C5: one failed race settlement, an always-failing
fallback oracle, and a record carrying only a content hash. -/
theorem C5_total_failure_witness :
    (fetchIPFS [.networkError] (fun _ _ => .networkError) 3 1000).1 = none ∧
    processApiResponse ⟨some [("dweb.ipfs.hash", "Qm1")], none⟩
        (fun _ =>
          (fetchIPFS [.networkError] (fun _ _ => .networkError) 3 1000).1) =
      .allGatewaysFailed := by
  have h := C5_total_failure.1 [.networkError] (fun _ _ => .networkError) 3 1000
    ⟨some [("dweb.ipfs.hash", "Qm1")], none⟩ (by simp)
    (by intro s hs; rcases List.mem_singleton.mp hs with rfl; rfl)
    (by intro g _ i _; rfl)
  exact ⟨h.1, (h.2 (by decide) (by decide)).1⟩

/-- One unfolding step of the retry loop. -/
theorem fallbackGo_succ (oracle : Nat → Nat → AttemptResult)
    (g delay i fuel : Nat) :
    fallbackGo oracle g delay i (fuel + 1) =
      match oracle g i with
      | .response r =>
        if isOk r.status then (some r, [.attempt g i])
        else
          ((fallbackGo oracle g delay (i + 1) fuel).1,
            .attempt g i ::
              (if 0 < fuel then
                Event.delayEvent delay :: (fallbackGo oracle g delay (i + 1) fuel).2
              else (fallbackGo oracle g delay (i + 1) fuel).2))
      | .networkError =>
        ((fallbackGo oracle g delay (i + 1) fuel).1,
          .attempt g i :: (fallbackGo oracle g delay (i + 1) fuel).2) := rfl

/-- With fuel remaining, the first event of the retry loop starting at
attempt `i` is the attempt `(g, i)` itself. -/
theorem fallbackGo_trace_head (oracle : Nat → Nat → AttemptResult)
    (g delay i n : Nat) :
    ∃ tl, (fallbackGo oracle g delay i (n + 1)).2 = .attempt g i :: tl := by
  rw [fallbackGo_succ]
  cases hor : oracle g i with
  | response r =>
    by_cases hok : isOk r.status = true
    · exact ⟨[], by simp [hok]⟩
    · rw [Bool.not_eq_true] at hok
      by_cases hn : 0 < n
      · exact ⟨Event.delayEvent delay :: (fallbackGo oracle g delay (i + 1) n).2,
          by simp [hok, hn]⟩
      · exact ⟨(fallbackGo oracle g delay (i + 1) n).2, by simp [hok, hn]⟩
  | networkError =>
    exact ⟨(fallbackGo oracle g delay (i + 1) n).2, by simp⟩

/-- C7 counterexample: with every attempt raising a network-level
exception and the default parameters (3 retries, delay 1000), the
fallback trace on the first gateway is three back-to-back attempts with
no inter-attempt delay at all — the claim instead requires a delay
after each failed non-final attempt. -/
theorem C7_counterexample_no_delay_after_exception :
    (fallbackGateway (fun _ _ => .networkError) 0 3 1000).2 =
      [.attempt 0 0, .attempt 0 1, .attempt 0 2] ∧
    Event.delayEvent 1000 ∉
      (fallbackGateway (fun _ _ => .networkError) 0 3 1000).2 := by
  decide

/-- C7 amended: in the sequential fallback phase, a non-final attempt
ending in a non-2xx status is followed by the fixed inter-attempt delay
(default 1000 time-units), but a non-final attempt ending in a
network-level exception is followed immediately by the next attempt
with no delay; the two failure kinds do agree in that either one counts
as a failed attempt, and a source whose attempts all fail — by either
kind of failure — is abandoned in favour of the next source. -/
theorem C7_amended_delay_behavior :
    (∀ (oracle : Nat → Nat → AttemptResult) (g retries delay : Nat),
      2 ≤ retries →
      (oracle g 0 = .networkError →
        (fallbackGateway oracle g retries delay).2.take 2 =
          [.attempt g 0, .attempt g 1]) ∧
      (∀ r, oracle g 0 = .response r → isOk r.status = false →
        (fallbackGateway oracle g retries delay).2.take 2 =
          [.attempt g 0, .delayEvent delay])) ∧
    (∀ (oracle : Nat → Nat → AttemptResult) (g retries delay : Nat)
        (gs : List Nat),
      (∀ i, i < retries → isFailedAttempt (oracle g i) = true) →
      (fallbackOver oracle retries delay (g :: gs)).1 =
        (fallbackOver oracle retries delay gs).1) := by
  constructor
  · intro oracle g retries delay hret
    obtain ⟨n, rfl⟩ : ∃ n, retries = n + 2 := ⟨retries - 2, by omega⟩
    have hstep : fallbackGo oracle g delay 0 (n + 2) =
        fallbackGo oracle g delay 0 ((n + 1) + 1) := rfl
    constructor
    · intro hor
      obtain ⟨tl, htl⟩ := fallbackGo_trace_head oracle g delay 1 n
      unfold fallbackGateway
      rw [hstep, fallbackGo_succ, hor]
      simp only
      rw [htl]
      rfl
    · intro r hor hok
      unfold fallbackGateway
      rw [hstep, fallbackGo_succ, hor]
      simp [hok]
  · intro oracle g retries delay gs hfail
    have hg : (fallbackGateway oracle g retries delay).1 = none :=
      fallbackGateway_all_fail oracle g retries delay hfail
    simp only [fallbackOver]
    cases hfb : fallbackGateway oracle g retries delay with
    | mk o evs =>
      rw [hfb] at hg
      cases o with
      | some r => simp at hg
      | none => simp

/-- Witness for the amended C7: a network-error oracle produces two
back-to-back attempts, a 500-status oracle interleaves the delay. -/
theorem C7_amended_delay_behavior_witness :
    (fallbackGateway (fun _ _ => .networkError) 0 3 1000).2.take 2 =
      [.attempt 0 0, .attempt 0 1] ∧
    (fallbackGateway (fun _ _ => .response ⟨500, none, []⟩) 0 3 1000).2.take 2 =
      [.attempt 0 0, .delayEvent 1000] :=
  ⟨(C7_amended_delay_behavior.1 (fun _ _ => .networkError) 0 3 1000
      (by omega)).1 rfl,
   (C7_amended_delay_behavior.1 (fun _ _ => .response ⟨500, none, []⟩) 0 3 1000
      (by omega)).2 ⟨500, none, []⟩ rfl (by decide)⟩

/-- A fetch oracle that always succeeds with a 200 `text/html`
response, for concrete counterexamples. -/
def fetchAlwaysOk : String → Option GatewayResponse :=
  fun _ => some ⟨200, some "text/html", "/index.html".toList⟩

/-- C6 counterexample: a service response whose mapping sits only under
`data.records` with a non-empty `dweb.ipfs.hash` is interpreted as
NotFound (HTTP 404), not as a Content outcome — even though the same
mapping at the top level yields Content. The worker's decision logic
reads only `record.records`; `record.data?.records` appears only in its
diagnostic logging. -/
theorem C6_counterexample_nested_records :
    processApiResponse ⟨none, some [("dweb.ipfs.hash", "QmNested")]⟩
        fetchAlwaysOk = .notFound ∧
    statusOf (processApiResponse ⟨none, some [("dweb.ipfs.hash", "QmNested")]⟩
        fetchAlwaysOk) = 404 ∧
    processApiResponse ⟨some [("dweb.ipfs.hash", "QmNested")], none⟩
        fetchAlwaysOk = .content "text/html" := by
  decide

/-- C6 amended: the Record Interpreter does not apply the
field-precedence interpretation to a mapping nested under
`data.records`: interpretation depends only on the top-level `records`
mapping, and a response with no top-level `records` mapping yields
NotFound (HTTP 404) whatever its `data.records` contains. -/
theorem C6_amended_dataRecords_ignored :
    ∀ (r : ResolutionRecord) (F : String → Option GatewayResponse),
      processApiResponse r F =
        processApiResponse ⟨r.records, none⟩ F ∧
      (r.records = none →
        processApiResponse r F = .notFound ∧
        statusOf (processApiResponse r F) = 404) := by
  intro r F
  refine ⟨rfl, ?_⟩
  intro hnone
  have hget : ∀ k, recordsGet r k = none := by
    intro k; simp [recordsGet, hnone]
  constructor
  · simp [processApiResponse, hget, jsTruthy, ipfsHashOf, jsOr]
  · simp [processApiResponse, hget, jsTruthy, ipfsHashOf, jsOr, statusOf]

/-- Witness for the amended C6 at the nested-only record. -/
theorem C6_amended_dataRecords_ignored_witness :
    processApiResponse ⟨none, some [("dweb.ipfs.hash", "QmNested")]⟩
        fetchAlwaysOk = .notFound :=
  ((C6_amended_dataRecords_ignored
      ⟨none, some [("dweb.ipfs.hash", "QmNested")]⟩ fetchAlwaysOk).2 rfl).1

/-- Two of the recognised extensions cannot both be suffixes of the
same path. -/
theorem extensions_not_both_suffix (a b p : Str)
    (hlen : a.length ≤ b.length) (hnsfx : a.isSuffixOf b = false)
    (ha : a.isSuffixOf p = true) (hb : b.isSuffixOf p = true) : False := by
  rw [List.isSuffixOf_iff_suffix] at ha hb
  have hab : a <:+ b := List.suffix_of_suffix_length_le ha hb hlen
  rw [← List.isSuffixOf_iff_suffix] at hab
  rw [hab] at hnsfx
  exact Bool.true_eq_false.mp hnsfx

/-- C9 counterexample: a response that declares the Content-Type header
with the empty string (which JavaScript treats as falsy in the
`if (!contentType)` test of worker.js line 203) does not have its
declared value used unchanged; the served type is instead inferred from
the `.png` path extension. -/
theorem C9_counterexample_empty_declared :
    (GatewayResponse.mk 200 (some "") ("/a/x.png".toList)).contentType =
      some "" ∧
    resolveContentType ⟨200, some "", "/a/x.png".toList⟩ = "image/png" ∧
    "image/png" ≠ "" := by
  decide

/-- C9 amended: a declared *non-empty* Content-Type is used unchanged;
an absent or empty declared Content-Type triggers inference from the
source URL's path extension, with `.png` giving `image/png`, `.jpg`
giving `image/jpeg`, `.json` giving `application/json`, and any other
or missing extension giving `text/html`. -/
theorem C9_amended_content_type :
    ∀ resp : GatewayResponse,
      (∀ ct, resp.contentType = some ct → ct ≠ "" →
        resolveContentType resp = ct) ∧
      (resp.contentType = none ∨ resp.contentType = some "" →
        resolveContentType resp = inferContentType resp.pathname) ∧
      ((".png".toList).isSuffixOf resp.pathname = true →
        inferContentType resp.pathname = "image/png") ∧
      ((".jpg".toList).isSuffixOf resp.pathname = true →
        inferContentType resp.pathname = "image/jpeg") ∧
      ((".json".toList).isSuffixOf resp.pathname = true →
        inferContentType resp.pathname = "application/json") ∧
      ((".png".toList).isSuffixOf resp.pathname = false →
        (".jpg".toList).isSuffixOf resp.pathname = false →
        (".json".toList).isSuffixOf resp.pathname = false →
        inferContentType resp.pathname = "text/html") := by
  intro resp
  refine ⟨?_, ?_, ?_, ?_, ?_, ?_⟩
  · intro ct hct hne
    have hie : ct.isEmpty = false := by
      rw [← Bool.not_eq_true]
      intro hc
      exact hne ((String.isEmpty_iff ct).mp hc)
    simp [resolveContentType, hct, hie]
  · rintro (hct | hct)
    · simp [resolveContentType, hct]
    · simp [resolveContentType, hct,
        show ("" : String).isEmpty = true from rfl]
  · intro hpng
    have h1 : ['.', 'p', 'n', 'g'] <:+ resp.pathname :=
      List.isSuffixOf_iff_suffix.mp hpng
    simp [inferContentType, h1]
  · intro hjpg
    have h1 : ['.', 'j', 'p', 'g'] <:+ resp.pathname :=
      List.isSuffixOf_iff_suffix.mp hjpg
    have h0 : ¬(['.', 'p', 'n', 'g'] <:+ resp.pathname) := fun hc =>
      extensions_not_both_suffix (".png".toList) (".jpg".toList)
        resp.pathname (by decide) (by decide)
        (List.isSuffixOf_iff_suffix.mpr hc) hjpg
    simp [inferContentType, h0, h1]
  · intro hjson
    have h1 : ['.', 'j', 's', 'o', 'n'] <:+ resp.pathname :=
      List.isSuffixOf_iff_suffix.mp hjson
    have h0 : ¬(['.', 'p', 'n', 'g'] <:+ resp.pathname) := fun hc =>
      extensions_not_both_suffix (".png".toList) (".json".toList)
        resp.pathname (by decide) (by decide)
        (List.isSuffixOf_iff_suffix.mpr hc) hjson
    have h2 : ¬(['.', 'j', 'p', 'g'] <:+ resp.pathname) := fun hc =>
      extensions_not_both_suffix (".jpg".toList) (".json".toList)
        resp.pathname (by decide) (by decide)
        (List.isSuffixOf_iff_suffix.mpr hc) hjson
    simp [inferContentType, h0, h2, h1]
  · intro hpng hjpg hjson
    have hpng' : ¬(['.', 'p', 'n', 'g'] <:+ resp.pathname) := fun hc => by
      have ht : (".png".toList).isSuffixOf resp.pathname = true :=
        List.isSuffixOf_iff_suffix.mpr hc
      rw [ht] at hpng
      exact Bool.true_eq_false.mp hpng
    have hjpg' : ¬(['.', 'j', 'p', 'g'] <:+ resp.pathname) := fun hc => by
      have ht : (".jpg".toList).isSuffixOf resp.pathname = true :=
        List.isSuffixOf_iff_suffix.mpr hc
      rw [ht] at hjpg
      exact Bool.true_eq_false.mp hjpg
    have hjson' : ¬(['.', 'j', 's', 'o', 'n'] <:+ resp.pathname) := fun hc => by
      have ht : (".json".toList).isSuffixOf resp.pathname = true :=
        List.isSuffixOf_iff_suffix.mpr hc
      rw [ht] at hjson
      exact Bool.true_eq_false.mp hjson
    simp [inferContentType, hpng', hjpg', hjson']

/-- Witness for the amended C9: a declared `text/css` response keeps
its type; an undeclared `.png` response resolves to `image/png`. -/
theorem C9_amended_content_type_witness :
    resolveContentType ⟨200, some "text/css", "/a/x.png".toList⟩ =
      "text/css" ∧
    resolveContentType ⟨200, none, "/a/x.png".toList⟩ = "image/png" := by
  constructor
  · exact (C9_amended_content_type ⟨200, some "text/css", "/a/x.png".toList⟩).1
      "text/css" rfl (by decide)
  · have h := C9_amended_content_type ⟨200, none, "/a/x.png".toList⟩
    rw [(h.2.1 (Or.inl rfl) : _)]
    exact h.2.2.1 (by decide)

/-- `handleRequest` never removes or overwrites an existing cache
entry: whatever the request does, every entry visible before it is
visible unchanged after it. -/
theorem handleRequest_cache_mono (apiKey : Option Str) (hostname : Str)
    (cache : Cache) (resolver : Str → ResolverReply)
    (F : String → Option GatewayResponse) (k : Str)
    (record : ResolutionRecord) (h : cache.lookup k = some record) :
    ((handleRequest apiKey hostname cache resolver F).2.1).lookup k =
      some record := by
  cases apiKey with
  | none => simpa [handleRequest] using h
  | some a =>
    cases ha : a.isEmpty with
    | true => simpa [handleRequest, ha] using h
    | false =>
      cases hp : parseHostname hostname with
      | welcome => simpa [handleRequest, ha, hp] using h
      | unsupportedFormat => simpa [handleRequest, ha, hp] using h
      | tooFewParts => simpa [handleRequest, ha, hp] using h
      | missingDomain => simpa [handleRequest, ha, hp] using h
      | query key =>
        cases hm : cache.lookup key with
        | some rec => simpa [handleRequest, ha, hp, hm] using h
        | none =>
          cases hr : resolver key with
          | httpError st => simpa [handleRequest, ha, hp, hm, hr] using h
          | decodeError => simpa [handleRequest, ha, hp, hm, hr] using h
          | success rec =>
            have hk : (k == key) = false := by
              rw [beq_eq_false_iff_ne]
              intro he
              rw [he, hm] at h
              cases h
            simpa [handleRequest, ha, hp, hm, hr, cacheSet,
              List.lookup, hk] using h

/-- Every lookup key queried upstream during one request is the
request's own parsed key, and it was absent from the cache. -/
theorem handleRequest_queries (apiKey : Option Str) (hostname : Str)
    (cache : Cache) (resolver : Str → ResolverReply)
    (F : String → Option GatewayResponse) :
    ∀ q ∈ (handleRequest apiKey hostname cache resolver F).2.2,
      parseHostname hostname = .query q ∧ cache.lookup q = none := by
  intro q hq
  cases apiKey with
  | none => simp [handleRequest] at hq
  | some a =>
    cases ha : a.isEmpty with
    | true => simp [handleRequest, ha] at hq
    | false =>
      cases hp : parseHostname hostname with
      | welcome => simp [handleRequest, ha, hp] at hq
      | unsupportedFormat => simp [handleRequest, ha, hp] at hq
      | tooFewParts => simp [handleRequest, ha, hp] at hq
      | missingDomain => simp [handleRequest, ha, hp] at hq
      | query key =>
        cases hm : cache.lookup key with
        | some rec => simp [handleRequest, ha, hp, hm] at hq
        | none =>
          cases hr : resolver key with
          | httpError st =>
            simp [handleRequest, ha, hp, hm, hr] at hq
            subst hq
            exact ⟨rfl, hm⟩
          | decodeError =>
            simp [handleRequest, ha, hp, hm, hr] at hq
            subst hq
            exact ⟨rfl, hm⟩
          | success rec =>
            simp [handleRequest, ha, hp, hm, hr] at hq
            subst hq
            exact ⟨rfl, hm⟩

/-- Every cache entry visible after a request was either already
present before it, or is the record of a successful resolver reply for
that key. -/
theorem handleRequest_writes (apiKey : Option Str) (hostname : Str)
    (cache : Cache) (resolver : Str → ResolverReply)
    (F : String → Option GatewayResponse) (k : Str)
    (record : ResolutionRecord)
    (h : ((handleRequest apiKey hostname cache resolver F).2.1).lookup k =
      some record) :
    cache.lookup k = some record ∨ resolver k = .success record := by
  cases apiKey with
  | none => exact Or.inl (by simpa [handleRequest] using h)
  | some a =>
    cases ha : a.isEmpty with
    | true => exact Or.inl (by simpa [handleRequest, ha] using h)
    | false =>
      cases hp : parseHostname hostname with
      | welcome => exact Or.inl (by simpa [handleRequest, ha, hp] using h)
      | unsupportedFormat =>
        exact Or.inl (by simpa [handleRequest, ha, hp] using h)
      | tooFewParts => exact Or.inl (by simpa [handleRequest, ha, hp] using h)
      | missingDomain =>
        exact Or.inl (by simpa [handleRequest, ha, hp] using h)
      | query key =>
        cases hm : cache.lookup key with
        | some rec => exact Or.inl (by simpa [handleRequest, ha, hp, hm] using h)
        | none =>
          cases hr : resolver key with
          | httpError st =>
            exact Or.inl (by simpa [handleRequest, ha, hp, hm, hr] using h)
          | decodeError =>
            exact Or.inl (by simpa [handleRequest, ha, hp, hm, hr] using h)
          | success rec =>
            by_cases hk : k = key
            · subst hk
              have : rec = record := by
                have hbeq : (k == k) = true := beq_self_eq_true k
                simpa [handleRequest, ha, hp, hm, hr, cacheSet,
                  List.lookup, hbeq] using h
              subst this
              exact Or.inr hr
            · have hbeq : (k == key) = false := beq_eq_false_iff_ne.mpr hk
              exact Or.inl (by simpa [handleRequest, ha, hp, hm, hr, cacheSet,
                List.lookup, hbeq] using h)

/-- C8: after one successful resolution of a lookup key populates the
cache (which records exactly the resolver's record and issues exactly
one query), a cache hit serves the cached record with no resolver
query, and over any subsequent sequence of requests the resolver is
never again queried for a key present in the cache; moreover, only
successful upstream responses are ever written to the cache. -/
theorem C8_cache_behaviour :
    ∀ (apiKey : Str) (resolver : Str → ResolverReply)
      (F : String → Option GatewayResponse),
      apiKey ≠ [] →
      (∀ hostname key record cache,
        parseHostname hostname = .query key →
        cache.lookup key = none →
        resolver key = .success record →
        (handleRequest (some apiKey) hostname cache resolver F).2.2 = [key] ∧
        ((handleRequest (some apiKey) hostname cache resolver F).2.1).lookup
          key = some record) ∧
      (∀ hostname key record cache,
        parseHostname hostname = .query key →
        cache.lookup key = some record →
        handleRequest (some apiKey) hostname cache resolver F =
          (.processed (processApiResponse record F), cache, [])) ∧
      (∀ (key : Str) (cache : Cache), cache.lookup key ≠ none →
        ∀ reqs : List Str,
          key ∉ (runRequests (some apiKey) resolver F reqs cache).2) ∧
      (∀ hostname cache k record,
        ((handleRequest (some apiKey) hostname cache resolver F).2.1).lookup
          k = some record →
        cache.lookup k = some record ∨ resolver k = .success record) := by
  intro apiKey resolver F hkey
  have ha : apiKey.isEmpty = false := by
    cases apiKey with
    | nil => exact absurd rfl hkey
    | cons c l => rfl
  refine ⟨?_, ?_, ?_, ?_⟩
  · intro hostname key record cache hp hm hr
    rw [handleRequest_miss apiKey hostname key cache resolver F ha hp hm, hr]
    have hbeq : (key == key) = true := beq_self_eq_true key
    exact ⟨rfl, by simp [cacheSet, List.lookup, hbeq]⟩
  · intro hostname key record cache hp hm
    exact handleRequest_hit apiKey hostname key record cache resolver F ha hp hm
  · intro key cache hne reqs
    induction reqs generalizing cache with
    | nil => simp [runRequests]
    | cons hn hs ih =>
      simp only [runRequests, List.mem_append]
      rintro (hin | hin)
      · have := (handleRequest_queries (some apiKey) hn cache resolver F
          key hin).2
        exact hne this
      · obtain ⟨r, hr⟩ := Option.ne_none_iff_exists'.mp hne
        have hmono := handleRequest_cache_mono (some apiKey) hn cache
          resolver F key r hr
        exact ih _ (by rw [hmono]; exact fun hc => Option.noConfusion hc) hin
  · intro hostname cache k record h
    exact handleRequest_writes (some apiKey) hostname cache resolver F
      k record h

/-- Witness for C8: a successful first resolution of `sunspot.brave`
issues exactly one query and populates the cache. -/
theorem C8_cache_behaviour_witness :
    (handleRequest (some ("k".toList)) ("sunspot.brave.site".toList) []
        (fun _ => .success ⟨some [("dweb.ipfs.hash", "Qm1")], none⟩)
        (fun _ => none)).2.2 = ["sunspot.brave".toList] :=
  ((C8_cache_behaviour ("k".toList)
      (fun _ => .success ⟨some [("dweb.ipfs.hash", "Qm1")], none⟩)
      (fun _ => none) (by decide)).1 ("sunspot.brave.site".toList)
    ("sunspot.brave".toList) ⟨some [("dweb.ipfs.hash", "Qm1")], none⟩ []
    (by decide) rfl rfl).1
